import Mathlib

/-!
Shallow embedding of the yatgl telegram client (src/yatgl/client.py) and
verification of its specification claims.

The embedding models:
- the value objects `Template`, `TelegramRequest`, `UserAgent`;
- the delivery queue (`collections.deque` used with `appendleft` / `pop`);
- the rate-limit wrapper `_api_request_wait` (including the walrus-operator
  binding on line 320 of the source, which binds the boolean comparison,
  not the header value);
- the send loop `_send_tg`;
- the mass-campaign orchestrator `_mass_queue` (baseline construction and
  the poll/diff loop);
- the proposal-approval lookup `_get_proposal_delegates_approving`;
- the singleton reconfiguration `Client.__init__`.

External HTTP responses are modelled as a structure of the fields the code
reads (status, the three rate-limit headers already parsed to numbers, and
the body); the directory API is modelled as a function supplied to the
orchestrator. Network loops are modelled by explicit recursion over the
finite list of responses the server returns.
-/

namespace Yatgl

/-- Source `Template(NamedTuple)`: secret key and telegram id. -/
structure Template where
  secret_key : String
  tgid : String
deriving DecidableEq, Repr

/-- Source `TelegramRequest(NamedTuple)`: a template plus a recipient. -/
structure TelegramRequest where
  template : Template
  recipient : String
deriving DecidableEq, Repr

/-- Source `UserAgent` dataclass. -/
structure UserAgent where
  nation_name : String
  script_name : String
  script_version : String
deriving DecidableEq, Repr

/-- Source enum `NationGroup` with its integer values. -/
inductive NationGroup where
  | NEW_WA_MEMBERS
  | ALL_WA_MEMBERS
  | NEW_FOUNDS
  | ALL_WA_DELEGATES
  | NEW_REGION_MEMBERS
  | ALL_REGION_MEMBERS
  | DELEGATES_APPROVING
  | DELEGATES_NOT_APPROVING
deriving DecidableEq, Repr

/-- The `value` of each `NationGroup` enum member in the source. -/
def NationGroup.value : NationGroup → Nat
  | .NEW_WA_MEMBERS => 0
  | .ALL_WA_MEMBERS => 1
  | .NEW_FOUNDS => 2
  | .ALL_WA_DELEGATES => 3
  | .NEW_REGION_MEMBERS => 4
  | .ALL_REGION_MEMBERS => 5
  | .DELEGATES_APPROVING => 7
  | .DELEGATES_NOT_APPROVING => 9

/-! ## The delivery queue

The source stores the queue in a `collections.deque`.  `Client.queue_tg`
does `self.queue.appendleft(TelegramRequest(template, recipient))` and the
scheduler `Client._process_queue` does `self.queue.pop()`, which removes
the element at the RIGHT end of the deque.  We model the deque as a Lean
list whose head is the deque's left end: `appendleft` is `List.cons`, and
`pop` takes the last element of the list. -/

/-- Source `Client.queue_tg`: `self.queue.appendleft(TelegramRequest(template, recipient))`. -/
def queue_tg (q : List TelegramRequest) (template : Template) (recipient : String) :
    List TelegramRequest :=
  TelegramRequest.mk template recipient :: q

/-- The deque `pop()` used by `Client._process_queue`: removes and returns
the element at the right end (the last element of our list model). -/
def dequePop (q : List TelegramRequest) : Option (TelegramRequest × List TelegramRequest) :=
  match q.getLast? with
  | none => none
  | some t => some (t, q.dropLast)

/-- Fuel-indexed drain loop: repeatedly `pop()` as `_process_queue` does,
collecting the requests in delivery order. -/
def drainAux : Nat → List TelegramRequest → List TelegramRequest
  | 0, _ => []
  | fuel + 1, q =>
    match dequePop q with
    | none => []
    | some (t, q') => t :: drainAux fuel q'

/-- Drain the whole queue through the scheduler's `pop()` loop. -/
def drain (q : List TelegramRequest) : List TelegramRequest :=
  drainAux q.length q

/-- Enqueue a list of requests in order via `queue_tg`. -/
def enqueueAll (rs : List TelegramRequest) : List TelegramRequest :=
  rs.foldl (fun q t => queue_tg q t.template t.recipient) []

theorem dequePop_eq_none {q : List TelegramRequest} (h : q = []) : dequePop q = none := by
  subst h; rfl

theorem dequePop_ne_nil {q : List TelegramRequest} (h : q ≠ []) :
    dequePop q = some (q.getLast h, q.dropLast) := by
  unfold dequePop
  rw [List.getLast?_eq_getLast_of_ne_nil h]

theorem drainAux_eq_reverse : ∀ (n : Nat) (q : List TelegramRequest), q.length = n →
    drainAux n q = q.reverse := by
  intro n
  induction n with
  | zero =>
    intro q hq
    rw [List.length_eq_zero] at hq
    subst hq; rfl
  | succ m ih =>
    intro q hq
    have hne : q ≠ [] := by
      intro h; subst h; simp at hq
    have hdrop : q.dropLast.length = m := by
      have := List.length_dropLast q
      omega
    have hsplit : q.dropLast ++ [q.getLast hne] = q := List.dropLast_append_getLast hne
    rw [drainAux, dequePop_ne_nil hne]
    show q.getLast hne :: drainAux m q.dropLast = q.reverse
    rw [ih q.dropLast hdrop]
    conv_rhs => rw [← hsplit]
    rw [List.reverse_append]
    rfl

theorem drain_eq_reverse (q : List TelegramRequest) : drain q = q.reverse :=
  drainAux_eq_reverse q.length q rfl

theorem enqueueAll_eq_reverse (rs : List TelegramRequest) : enqueueAll rs = rs.reverse := by
  unfold enqueueAll queue_tg
  induction rs using List.reverseRecOn with
  | nil => rfl
  | append_singleton xs x ih =>
    rw [List.foldl_append, List.foldl_cons, List.foldl_nil, ih, List.reverse_append]
    rfl

/-! ## HTTP responses and the rate-limit wrapper `_api_request_wait`

A response is modelled by the fields the code reads.  The code parses the
headers with `int(...)`; we model them as already-parsed naturals.

Source (lines 311-324):

```
while True:
    async with self._session.post(url, data=data) as resp:
        if resp.status == 429:
            retry_after = int(resp.headers['Retry-After'])
            await asyncio.sleep(retry_after)
        else:
            if remaining := int(resp.headers['RateLimit-Remaining']) <= 7:
                await asyncio.sleep(int(resp.headers['RateLimit-Reset']) / remaining)
            yield resp
            break
```

Python's walrus operator has lower precedence than `<=`, so `remaining`
is bound to the BOOLEAN `int(headers['RateLimit-Remaining']) <= 7`, not to
the header value; inside the branch it is `True`, whose numeric value is
1, so the sleep is `reset / 1`.  The embedding reproduces exactly that. -/

/-- An HTTP response as read by the client: status, the parsed
`Retry-After`, `RateLimit-Remaining` and `RateLimit-Reset` headers, and
the body text. -/
structure Resp where
  status : Nat
  retryAfter : Nat
  rlRemaining : Nat
  rlReset : Nat
  body : String
deriving DecidableEq, Repr

/-- Numeric value of a Python boolean (`True` is 1, `False` is 0). -/
def pyBoolVal (b : Bool) : ℚ := if b then 1 else 0

/-- Observable events of the `_api_request_wait` wrapper. -/
inductive ApiEvent where
  | sleep (secs : ℚ)
  | yieldResp (r : Resp)
deriving DecidableEq, Repr

/-- Source `Client._api_request_wait`, run against the finite list of
responses the server gives to the successive identical requests.  A 429
response causes a sleep of `Retry-After` seconds and a reissue; a non-429
response is yielded, preceded by a sleep of `reset / remaining` seconds
when the walrus-bound boolean `remaining` is true (Python evaluates the
division with `remaining = True`, i.e. divides by 1). -/
def api_request_wait : List Resp → List ApiEvent
  | [] => []
  | r :: rest =>
    if r.status = 429 then
      ApiEvent.sleep (r.retryAfter : ℚ) :: api_request_wait rest
    else
      let remaining : Bool := r.rlRemaining ≤ 7
      if remaining then
        ApiEvent.sleep ((r.rlReset : ℚ) / pyBoolVal remaining) :: [ApiEvent.yieldResp r]
      else
        [ApiEvent.yieldResp r]

/-- Modelled from the spec's words, for comparison with the code: on a
non-429 response with remaining quota at or below 7, suspend for
`reset_window / remaining_quota` seconds before yielding. -/
def api_request_wait_spec : List Resp → List ApiEvent
  | [] => []
  | r :: rest =>
    if r.status = 429 then
      ApiEvent.sleep (r.retryAfter : ℚ) :: api_request_wait_spec rest
    else
      if r.rlRemaining ≤ 7 then
        ApiEvent.sleep ((r.rlReset : ℚ) / (r.rlRemaining : ℚ)) :: [ApiEvent.yieldResp r]
      else
        [ApiEvent.yieldResp r]

/-- A concrete non-429 response with remaining quota 2 and reset window
30 seconds: the failing input for the proactive-backoff bug. -/
def lowQuotaResp : Resp :=
  { status := 200, retryAfter := 0, rlRemaining := 2, rlReset := 30, body := "" }

/-- C1: For every sequence of requests enqueued via `queue_tg` in order,
draining the queue with the scheduler loop delivers them in the same
order: `queue_tg` appends at the left end, the scheduler's `pop()` removes
the oldest entry at the right end, so the queue is FIFO by enqueue time. -/
theorem fifo_queue_delivery_order (rs : List TelegramRequest) :
    drain (enqueueAll rs) = rs := by
  rw [enqueueAll_eq_reverse, drain_eq_reverse, List.reverse_reverse]

/-- C2: On the failing input (a non-429 response with remaining quota 2
and reset window 30), the code sleeps 30 seconds — `reset` divided by the
walrus-bound boolean `True`, i.e. by 1 — before yielding, whereas the
spec's `reset_window / remaining_quota` formula gives 15 seconds.  The
claim is right about the intent and the code is wrong: the walrus
operator binds the comparison, not the header value. -/
theorem api_request_wait_low_quota_sleeps_reset_not_quotient :
    api_request_wait [lowQuotaResp]
      = [ApiEvent.sleep 30, ApiEvent.yieldResp lowQuotaResp]
    ∧ api_request_wait_spec [lowQuotaResp]
      = [ApiEvent.sleep 15, ApiEvent.yieldResp lowQuotaResp]
    ∧ lowQuotaResp.status ≠ 429 ∧ lowQuotaResp.rlRemaining ≤ 7 := by
  refine ⟨?_, ?_, by decide, by decide⟩
  · show ApiEvent.sleep ((30 : ℚ) / pyBoolVal true) :: _ = _
    norm_num [pyBoolVal]
  · show ApiEvent.sleep ((30 : ℚ) / (2 : ℚ)) :: _ = _
    norm_num

/-! ## The send loop `_send_tg`

Source (lines 334-358): canonicalize the recipient, build the form data
once, then loop: POST; on 429 sleep `Retry-After` seconds and reissue the
identical request; on a non-429 response whose body contains the literal
`'queued'` add the canonical recipient to `self.sent` and stop; otherwise
log an error and stop.  Note the loop reads only `status`, `Retry-After`
and the body: the rate-limit quota headers are never inspected here. -/

/-- Source line 335: `telegram.recipient.lower().replace(' ', '_')`.
Lowercase every character, then rewrite every space to an underscore
(`str.replace` with the single-character pattern `' '` is exactly a
character-by-character rewrite). -/
def canonicalize (s : String) : String :=
  String.mk ((s.data.map Char.toLower).map (fun c => if c = ' ' then '_' else c))

/-- The form data composed once before the send loop (source lines
336-342). -/
structure SendData where
  client : String
  tgid : String
  key : String
  toNation : String
deriving DecidableEq, Repr

/-- Source lines 335-342: the data dict of `_send_tg` for a client key
and a telegram request, with the recipient canonicalized. -/
def sendData (clientKey : String) (t : TelegramRequest) : SendData :=
  { client := clientKey
    tgid := t.template.tgid
    key := t.template.secret_key
    toNation := canonicalize t.recipient }

/-- Python's `'queued' in text` substring test. -/
def containsMarker (marker text : String) : Bool :=
  decide (marker.data <:+: text.data)

/-- Observable events of one `_send_tg` call: each request issued (with
the form data it carries), each sleep, the ledger insertion on success,
and the error log on a terminal failure. -/
inductive SendEvent where
  | request (d : SendData)
  | sleep (secs : Nat)
  | sentAdd (recipient : String)
  | errorLog (body : String)
deriving DecidableEq, Repr

/-- The `while True` loop of `_send_tg` (source lines 344-358), run
against the finite list of responses the server gives to the successive
requests.  The form data `d` was computed once before the loop and never
changes. -/
def send_tg_loop (d : SendData) : List Resp → List SendEvent
  | [] => []
  | r :: rest =>
    SendEvent.request d ::
      (if r.status = 429 then
        SendEvent.sleep r.retryAfter :: send_tg_loop d rest
      else if containsMarker "queued" r.body then
        [SendEvent.sentAdd d.toNation]
      else
        [SendEvent.errorLog r.body])

/-- Source `Client._send_tg`: canonicalize, compose the data, run the
loop. -/
def send_tg (clientKey : String) (t : TelegramRequest) (resps : List Resp) :
    List SendEvent :=
  send_tg_loop (sendData clientKey t) resps

/-- A concrete successful send response whose remaining quota (3) is at
or below the low-water mark 7. -/
def lowQuotaSendResp : Resp :=
  { status := 200, retryAfter := 0, rlRemaining := 3, rlReset := 30, body := "queued" }

/-- C3 counterexample: a send call whose (non-429) response has remaining
quota 3 ≤ 7 produces no suspension at all — its trace is just the request
followed by the ledger insertion — so the proactive low-quota suspension
is NOT applied to send calls, contrary to the claim. -/
theorem send_low_quota_no_proactive_sleep :
    send_tg "ck" ⟨⟨"sk", "42"⟩, "new_provi"⟩ [lowQuotaSendResp]
      = [SendEvent.request (sendData "ck" ⟨⟨"sk", "42"⟩, "new_provi"⟩),
         SendEvent.sentAdd "new_provi"]
    ∧ lowQuotaSendResp.status ≠ 429 ∧ lowQuotaSendResp.rlRemaining ≤ 7 := by
  refine ⟨?_, by decide, by decide⟩
  rfl

/-- Sleeps in the send loop arise only from 429 responses. -/
theorem send_tg_loop_sleep_only_from_429 (d : SendData) (resps : List Resp)
    (h : ∀ r ∈ resps, r.status ≠ 429) :
    ∀ n, SendEvent.sleep n ∉ send_tg_loop d resps := by
  induction resps with
  | nil => intro n hn; simp [send_tg_loop] at hn
  | cons r rest ih =>
    intro n hn
    have hr : r.status ≠ 429 := h r (List.mem_cons_self r rest)
    rw [send_tg_loop] at hn
    rw [if_neg hr] at hn
    rcases List.mem_cons.mp hn with h1 | h2
    · exact SendEvent.noConfusion h1
    · by_cases hq : containsMarker "queued" r.body
      · rw [if_pos hq] at h2
        rcases List.mem_singleton.mp h2 with h3
        exact SendEvent.noConfusion h3
      · rw [if_neg hq] at h2
        rcases List.mem_singleton.mp h2 with h3
        exact SendEvent.noConfusion h3

/-- C3 (amended): the 429 wait-and-reissue protocol is applied to both
fetch calls and send calls, but the proactive low-quota suspension is
applied only to the fetch calls wrapped by `_api_request_wait`; the send
loop never inspects the quota headers, so a send call's trace contains a
sleep only for a 429 response — with no 429s it contains no sleep at all,
whatever the quota headers say — while a fetch call with the same
low-quota response does sleep before yielding. -/
theorem governor_not_uniform_send_vs_fetch (d : SendData) (resps : List Resp)
    (h : ∀ r ∈ resps, r.status ≠ 429) :
    (∀ n, SendEvent.sleep n ∉ send_tg_loop d resps)
    ∧ ∀ (r : Resp) (rest : List Resp), r.status ≠ 429 → r.rlRemaining ≤ 7 →
        api_request_wait (r :: rest)
          = [ApiEvent.sleep ((r.rlReset : ℚ) / pyBoolVal (r.rlRemaining ≤ 7)),
             ApiEvent.yieldResp r] := by
  refine ⟨send_tg_loop_sleep_only_from_429 d resps h, ?_⟩
  intro r rest hr hq
  rw [api_request_wait, if_neg hr]
  simp only [decide_eq_true hq, if_pos]

/-- Witness for the amended C3 theorem at a concrete input: the send
trace for the low-quota success response has no sleep, and the fetch
wrapper sleeps on the same kind of response. -/
theorem governor_not_uniform_send_vs_fetch_witness :
    (∀ n, SendEvent.sleep n ∉ send_tg_loop (sendData "ck" ⟨⟨"sk", "42"⟩, "a b"⟩)
        [lowQuotaSendResp])
    ∧ api_request_wait [lowQuotaResp]
        = [ApiEvent.sleep ((30 : ℚ) / pyBoolVal true), ApiEvent.yieldResp lowQuotaResp] := by
  have h := governor_not_uniform_send_vs_fetch (sendData "ck" ⟨⟨"sk", "42"⟩, "a b"⟩)
    [lowQuotaSendResp] (by intro r hr; rw [List.mem_singleton] at hr; subst hr; decide)
  exact ⟨h.1, h.2 lowQuotaResp [] (by decide) (by decide)⟩

/-- A ledger insertion in the send loop always records the canonical
recipient carried in the form data. -/
theorem send_tg_loop_sentAdd_canonical (d : SendData) (resps : List Resp) :
    ∀ rcpt, SendEvent.sentAdd rcpt ∈ send_tg_loop d resps → rcpt = d.toNation := by
  induction resps with
  | nil => intro rcpt h; simp [send_tg_loop] at h
  | cons r rest ih =>
    intro rcpt h
    rw [send_tg_loop] at h
    rcases List.mem_cons.mp h with h1 | h2
    · exact SendEvent.noConfusion h1
    · by_cases hr : r.status = 429
      · rw [if_pos hr] at h2
        rcases List.mem_cons.mp h2 with h3 | h4
        · exact SendEvent.noConfusion h3
        · exact ih rcpt h4
      · rw [if_neg hr] at h2
        by_cases hq : containsMarker "queued" r.body
        · rw [if_pos hq] at h2
          have h3 := List.mem_singleton.mp h2
          injection h3 with h4
        · rw [if_neg hq] at h2
          have h3 := List.mem_singleton.mp h2
          exact SendEvent.noConfusion h3

/-- C6: The recipient is canonicalized (lowercased, spaces replaced by
underscores) at the point of sending — the form data's `to` field — and
every identifier recorded in the sent ledger is that same canonical form;
in particular "New Provi" and "new_provi" both canonicalize to the single
identifier "new_provi". -/
theorem canonicalization_consistency (ck : String) (t : TelegramRequest) (resps : List Resp) :
    (sendData ck t).toNation = canonicalize t.recipient
    ∧ (∀ rcpt, SendEvent.sentAdd rcpt ∈ send_tg ck t resps → rcpt = canonicalize t.recipient)
    ∧ canonicalize "New Provi" = "new_provi"
    ∧ canonicalize "new_provi" = "new_provi" :=
  ⟨rfl, fun rcpt h => send_tg_loop_sentAdd_canonical (sendData ck t) resps rcpt h, rfl, rfl⟩

/-- Witness for the canonicalization theorem: in a concrete successful
send of a telegram addressed to "New Provi", the ledger entry produced is
exactly "new_provi". -/
theorem canonicalization_consistency_witness :
    SendEvent.sentAdd "new_provi"
        ∈ send_tg "ck" ⟨⟨"sk", "42"⟩, "New Provi"⟩
            [{ status := 200, retryAfter := 0, rlRemaining := 99, rlReset := 30,
               body := "queued" }]
    ∧ "new_provi" = canonicalize "New Provi" := by
  refine ⟨by decide, ?_⟩
  exact (canonicalization_consistency "ck" ⟨⟨"sk", "42"⟩, "New Provi"⟩
    [{ status := 200, retryAfter := 0, rlRemaining := 99, rlReset := 30,
       body := "queued" }]).2.1 "new_provi" (by decide)

/-- C7: A send call that receives any run of 429 responses sleeps exactly
each response's `Retry-After` and reissues the identical request (same
client key, message id, secret key, canonical recipient) until the first
non-429 response; only then, on the success marker, is the canonical
recipient added to the ledger — no failure is logged and nothing is
ledgered during the retries. -/
theorem send_429_retry_identical (ck : String) (t : TelegramRequest)
    (rs : List Resp) (final : Resp)
    (h429 : ∀ r ∈ rs, r.status = 429)
    (hfin : final.status ≠ 429)
    (hq : containsMarker "queued" final.body = true) :
    send_tg ck t (rs ++ [final])
      = (rs.map (fun r => [SendEvent.request (sendData ck t),
            SendEvent.sleep r.retryAfter])).flatten
        ++ [SendEvent.request (sendData ck t),
            SendEvent.sentAdd (canonicalize t.recipient)] := by
  unfold send_tg
  induction rs with
  | nil =>
    simp only [List.nil_append, List.map_nil, List.flatten_nil]
    rw [send_tg_loop, if_neg hfin, if_pos hq]
    rfl
  | cons r rest ih =>
    have hr : r.status = 429 := h429 r (List.mem_cons_self r rest)
    have hrest : ∀ x ∈ rest, x.status = 429 := fun x hx => h429 x (List.mem_cons_of_mem r hx)
    simp only [List.cons_append]
    rw [send_tg_loop, if_pos hr, ih hrest]
    simp

/-- Witness for the 429-retry theorem: one 429 with retry-after 5
followed by a success yields request, sleep 5, identical request, ledger
insertion. -/
theorem send_429_retry_identical_witness :
    send_tg "ck" ⟨⟨"sk", "42"⟩, "New Provi"⟩
        [{ status := 429, retryAfter := 5, rlRemaining := 0, rlReset := 0, body := "" },
         { status := 200, retryAfter := 0, rlRemaining := 99, rlReset := 30,
           body := "queued" }]
      = [SendEvent.request (sendData "ck" ⟨⟨"sk", "42"⟩, "New Provi"⟩),
         SendEvent.sleep 5,
         SendEvent.request (sendData "ck" ⟨⟨"sk", "42"⟩, "New Provi"⟩),
         SendEvent.sentAdd (canonicalize "New Provi")] := by
  have h := send_429_retry_identical "ck" ⟨⟨"sk", "42"⟩, "New Provi"⟩
    [{ status := 429, retryAfter := 5, rlRemaining := 0, rlReset := 0, body := "" }]
    { status := 200, retryAfter := 0, rlRemaining := 99, rlReset := 30, body := "queued" }
    (by intro r hr; rw [List.mem_singleton] at hr; subst hr; rfl)
    (by decide) (by decide)
  simpa using h

/-! ## The mass-campaign orchestrator `_mass_queue` (dynamic path)

Source lines 223-253.  On entering the dynamic branch the code builds the
baseline exclusion set:

```
existing = set()
if group is NationGroup.NEW_REGION_MEMBERS:
    for region in regions:
        existing.update(await self._get_region_members(region))
elif group is NationGroup.NEW_WA_MEMBERS:
    existing = set(await self._get_wa_members())
```

so for `NEW_FOUNDS` the baseline stays the empty set — no membership
fetch happens before the polling loop.  Each loop iteration then fetches
the current membership and, for each member not in `existing`, enqueues
it and adds it to `existing`. -/

/-- The directory state at one instant: members per region, assembly
members, and the new-founds feed. -/
structure World where
  regionMembers : String → List String
  waMembers : List String
  newFounds : List String

/-- Source lines 225-230: the baseline `existing` set built before the
dynamic polling loop.  For `NEW_REGION_MEMBERS` it is updated with the
members of every region; for `NEW_WA_MEMBERS` it is the assembly member
set; for every other group (in particular `NEW_FOUNDS`) it stays empty. -/
def massQueueBaseline (group : NationGroup) (regions : List String) (w : World) :
    Finset String :=
  match group with
  | .NEW_REGION_MEMBERS =>
      regions.foldl (fun s region => s ∪ (w.regionMembers region).toFinset) ∅
  | .NEW_WA_MEMBERS => w.waMembers.toFinset
  | _ => ∅

/-- One iteration of the dynamic loop body over a fetched membership list
(source lines 234-251): for each fetched member not in `existing`,
enqueue it and add it to `existing`.  Returns the updated set and the
list of members enqueued this iteration, in enqueue order. -/
def pollIter (existing : Finset String) : List String → Finset String × List String
  | [] => (existing, [])
  | n :: rest =>
    if n ∈ existing then pollIter existing rest
    else
      let p := pollIter (insert n existing) rest
      (p.1, n :: p.2)

/-- The dynamic polling loop run over a finite sequence of fetch results
(one per 60-second iteration), starting from the baseline set.  Returns
the final `existing` set and the full enqueue trace. -/
def campaign (existing : Finset String) : List (List String) → Finset String × List String
  | [] => (existing, [])
  | poll :: rest =>
    let p := pollIter existing poll
    let c := campaign p.1 rest
    (c.1, p.2 ++ c.2)

theorem pollIter_subset (existing : Finset String) (poll : List String) :
    existing ⊆ (pollIter existing poll).1 := by
  induction poll generalizing existing with
  | nil => exact fun x hx => hx
  | cons n rest ih =>
    rw [pollIter]
    by_cases hn : n ∈ existing
    · rw [if_pos hn]; exact ih existing
    · rw [if_neg hn]
      exact fun x hx => ih (insert n existing) (Finset.mem_insert_of_mem hx)

theorem pollIter_out_not_mem (existing : Finset String) (poll : List String) :
    ∀ m ∈ (pollIter existing poll).2, m ∉ existing := by
  induction poll generalizing existing with
  | nil => intro m hm; simp [pollIter] at hm
  | cons n rest ih =>
    intro m hm
    rw [pollIter] at hm
    by_cases hn : n ∈ existing
    · rw [if_pos hn] at hm
      exact ih existing m hm
    · rw [if_neg hn] at hm
      rcases List.mem_cons.mp hm with h1 | h2
      · subst h1; exact hn
      · intro hmem
        exact ih (insert n existing) m h2 (Finset.mem_insert_of_mem hmem)

theorem pollIter_out_mem_result (existing : Finset String) (poll : List String) :
    ∀ m ∈ (pollIter existing poll).2, m ∈ (pollIter existing poll).1 := by
  induction poll generalizing existing with
  | nil => intro m hm; simp [pollIter] at hm
  | cons n rest ih =>
    intro m hm
    rw [pollIter] at hm ⊢
    by_cases hn : n ∈ existing
    · rw [if_pos hn] at hm ⊢
      exact ih existing m hm
    · rw [if_neg hn] at hm ⊢
      rcases List.mem_cons.mp hm with h1 | h2
      · subst h1
        exact pollIter_subset (insert m existing) rest (Finset.mem_insert_self m existing)
      · exact ih (insert n existing) m h2

theorem pollIter_out_nodup (existing : Finset String) (poll : List String) :
    (pollIter existing poll).2.Nodup := by
  induction poll generalizing existing with
  | nil => simp [pollIter]
  | cons n rest ih =>
    rw [pollIter]
    by_cases hn : n ∈ existing
    · rw [if_pos hn]; exact ih existing
    · rw [if_neg hn]
      refine List.nodup_cons.mpr ⟨?_, ih (insert n existing)⟩
      intro hmem
      exact pollIter_out_not_mem (insert n existing) rest n hmem
        (Finset.mem_insert_self n existing)

theorem pollIter_out_filter (existing : Finset String) (poll : List String)
    (hnd : poll.Nodup) :
    (pollIter existing poll).2 = poll.filter (fun n => n ∉ existing) := by
  induction poll generalizing existing with
  | nil => simp [pollIter]
  | cons n rest ih =>
    rw [List.nodup_cons] at hnd
    rw [pollIter, List.filter_cons]
    by_cases hn : n ∈ existing
    · have hd : ¬(decide (n ∉ existing) = true) := by simpa using hn
      rw [if_pos hn, if_neg hd]
      exact ih existing hnd.2
    · have hd : decide (n ∉ existing) = true := decide_eq_true hn
      rw [if_neg hn, if_pos hd]
      show n :: (pollIter (insert n existing) rest).2 = _
      rw [ih (insert n existing) hnd.2]
      congr 1
      apply List.filter_congr
      intro m hm
      have hne : m ≠ n := fun h => hnd.1 (h ▸ hm)
      simp [Finset.mem_insert, hne]

theorem campaign_subset (existing : Finset String) (polls : List (List String)) :
    existing ⊆ (campaign existing polls).1 := by
  induction polls generalizing existing with
  | nil => exact fun x hx => hx
  | cons poll rest ih =>
    rw [campaign]
    exact fun x hx => ih (pollIter existing poll).1 (pollIter_subset existing poll hx)

theorem campaign_out_not_mem (existing : Finset String) (polls : List (List String)) :
    ∀ m ∈ (campaign existing polls).2, m ∉ existing := by
  induction polls generalizing existing with
  | nil => intro m hm; simp [campaign] at hm
  | cons poll rest ih =>
    intro m hm
    rw [campaign] at hm
    rcases List.mem_append.mp hm with h1 | h2
    · exact pollIter_out_not_mem existing poll m h1
    · intro hmem
      exact ih (pollIter existing poll).1 m h2 (pollIter_subset existing poll hmem)

theorem campaign_out_nodup (existing : Finset String) (polls : List (List String)) :
    (campaign existing polls).2.Nodup := by
  induction polls generalizing existing with
  | nil => simp [campaign]
  | cons poll rest ih =>
    rw [campaign]
    refine List.nodup_append.mpr ⟨pollIter_out_nodup existing poll,
      ih (pollIter existing poll).1, ?_⟩
    intro m hm1 hm2
    exact campaign_out_not_mem (pollIter existing poll).1 rest m hm2
      (pollIter_out_mem_result existing poll m hm1)

theorem foldl_union_mem (f : String → List String) (m : String) :
    ∀ (regions : List String) (acc : Finset String),
      (m ∈ regions.foldl (fun s region => s ∪ (f region).toFinset) acc ↔
        m ∈ acc ∨ ∃ region ∈ regions, m ∈ f region) := by
  intro regions
  induction regions with
  | nil => intro acc; simp
  | cons region rest ih =>
    intro acc
    rw [List.foldl_cons, ih (acc ∪ (f region).toFinset)]
    simp only [Finset.mem_union, List.mem_toFinset, List.mem_cons]
    constructor
    · rintro ((h | h) | ⟨reg, hreg, hm⟩)
      · exact Or.inl h
      · exact Or.inr ⟨region, Or.inl rfl, h⟩
      · exact Or.inr ⟨reg, Or.inr hreg, hm⟩
    · rintro (h | ⟨reg, (rfl | hreg), hm⟩)
      · exact Or.inl (Or.inl h)
      · exact Or.inl (Or.inr hm)
      · exact Or.inr ⟨reg, hreg, hm⟩

/-- A directory state whose new-founds feed already contains "alice" at
campaign start. -/
def foundsWorld : World :=
  { regionMembers := fun _ => [], waMembers := [], newFounds := ["alice"] }

/-- C4 counterexample: for `NEW_FOUNDS` the orchestrator does NOT fetch
a baseline — the baseline set is empty — so "alice", although present in
the new-founds feed at campaign start, is enqueued by the very first poll
iteration, contradicting the claim that members present at campaign start
are never enqueued. -/
theorem new_founds_baseline_not_fetched :
    massQueueBaseline NationGroup.NEW_FOUNDS [] foundsWorld = ∅
    ∧ "alice" ∈ foundsWorld.newFounds
    ∧ (campaign (massQueueBaseline NationGroup.NEW_FOUNDS [] foundsWorld)
        [foundsWorld.newFounds]).2 = ["alice"] := by
  refine ⟨rfl, by decide, by decide⟩

/-- C4 (amended): the baseline ExistingSet is fetched before the polling
loop for the region-scoped kind (union across all specified regions) and
for new assembly members, and members of that baseline are never
enqueued; but for new founds no baseline fetch happens — the baseline is
the empty set — so new-founds members present at campaign start are
enqueued on the first poll. -/
theorem dynamic_baseline_by_group (regions : List String) (w : World) (b : Finset String)
    (polls : List (List String)) :
    (∀ m, m ∈ massQueueBaseline NationGroup.NEW_REGION_MEMBERS regions w ↔
        ∃ region ∈ regions, m ∈ w.regionMembers region)
    ∧ (∀ m, m ∈ massQueueBaseline NationGroup.NEW_WA_MEMBERS regions w ↔ m ∈ w.waMembers)
    ∧ massQueueBaseline NationGroup.NEW_FOUNDS regions w = ∅
    ∧ ∀ m ∈ b, m ∉ (campaign b polls).2 := by
  refine ⟨?_, ?_, rfl, ?_⟩
  · intro m
    rw [massQueueBaseline, foldl_union_mem]
    simp
  · intro m
    rw [massQueueBaseline]
    exact List.mem_toFinset
  · intro m hm hout
    exact campaign_out_not_mem b polls m hout hm

/-- Witness for the amended C4 theorem: region baseline for a concrete
world contains exactly the region's members, and a concrete baseline
member is never enqueued by the campaign. -/
theorem dynamic_baseline_by_group_witness :
    ("alice" ∈ massQueueBaseline NationGroup.NEW_REGION_MEMBERS ["r1"]
        { regionMembers := fun _ => ["alice"], waMembers := [], newFounds := [] } ↔
      ∃ region ∈ ["r1"], "alice" ∈ ["alice"])
    ∧ "a" ∉ (campaign ({"a"} : Finset String) [["a", "b"]]).2 := by
  have h := dynamic_baseline_by_group ["r1"]
    { regionMembers := fun _ => ["alice"], waMembers := [], newFounds := [] }
    ({"a"} : Finset String) [["a", "b"]]
  exact ⟨h.1 "alice", h.2.2.2 "a" (by decide)⟩

/-- C5: Within one dynamic campaign the ExistingSet only grows; each poll
iteration enqueues exactly the fetched members not already in the set
(for a duplicate-free fetch list), in fetch order; the whole enqueue
trace is duplicate-free, so no identifier is ever enqueued twice; and the
concrete scenario — baseline {a, b}, polls {a, b, c} then {a, b, c, d} —
produces exactly the two enqueue events c then d. -/
theorem dynamic_campaign_dedup (b existing : Finset String)
    (polls : List (List String)) (poll : List String) (hnd : poll.Nodup) :
    existing ⊆ (pollIter existing poll).1
    ∧ (pollIter existing poll).2 = poll.filter (fun n => n ∉ existing)
    ∧ (campaign b polls).2.Nodup
    ∧ (campaign ({"a", "b"} : Finset String)
        [["a", "b", "c"], ["a", "b", "c", "d"]]).2 = ["c", "d"] :=
  ⟨pollIter_subset existing poll,
   pollIter_out_filter existing poll hnd,
   campaign_out_nodup b polls,
   by decide⟩

/-- Witness for the dedup theorem at concrete inputs: polling
["x", "y"] against the set {"x"} enqueues exactly ["y"]. -/
theorem dynamic_campaign_dedup_witness :
    (pollIter ({"x"} : Finset String) ["x", "y"]).2
      = List.filter (fun n => n ∉ ({"x"} : Finset String)) ["x", "y"]
    ∧ (List.filter (fun n => n ∉ ({"x"} : Finset String)) ["x", "y"]) = ["y"] :=
  ⟨(dynamic_campaign_dedup ∅ {"x"} [] ["x", "y"] (by decide)).2.1, by decide⟩

/-! ## The proposal-approval lookup `_get_proposal_delegates_approving`

Source lines 294-309: fetch the proposal list of the given council, look
up the proposal by id; if found return its approving delegates; if not
found and the council was '1', recurse once with council '2'; otherwise
return the empty list.  The recursion reaches depth at most 2 (it only
recurses when the council is '1', passing '2'), so the embedding unrolls
it: the recursive call with council '2' either finds the proposal or
returns `[]`. -/

/-- One proposal in a chamber's proposal list: its id and the delegates
approving it (the source splits the `APPROVALS` field on colons; we take
the already-split list, parsing being out of scope). -/
structure Proposal where
  id : String
  approvals : List String
deriving DecidableEq, Repr

/-- The `parsed.find(id=proposal)` lookup on a chamber's proposal list. -/
def findProposal (doc : List Proposal) (pid : String) : Option Proposal :=
  doc.find? (fun p => p.id = pid)

/-- Source `Client._get_proposal_delegates_approving`, with the
depth-two recursion (council '1' retries as council '2') unrolled.
`api` maps a council parameter to that chamber's proposal list. -/
def get_proposal_delegates_approving (api : String → List Proposal) (pid : String)
    (council : String) : List String :=
  match findProposal (api council) pid with
  | some p => p.approvals
  | none =>
    if council = "1" then
      match findProposal (api "2") pid with
      | some p => p.approvals
      | none => []
    else []

/-- C8: The lookup queries chamber '1' first and returns its approving
list when the proposal is found there; when the id is absent from
chamber '1' it retries exactly once against chamber '2' and returns that
chamber's approving list when found; when the id is absent from both
chambers it returns the empty list rather than raising. -/
theorem proposal_lookup_fallback (api : String → List Proposal) (pid : String) :
    (∀ p, findProposal (api "1") pid = some p →
        get_proposal_delegates_approving api pid "1" = p.approvals)
    ∧ (∀ p, findProposal (api "1") pid = none → findProposal (api "2") pid = some p →
        get_proposal_delegates_approving api pid "1" = p.approvals)
    ∧ (findProposal (api "1") pid = none → findProposal (api "2") pid = none →
        get_proposal_delegates_approving api pid "1" = []) := by
  refine ⟨?_, ?_, ?_⟩
  · intro p h1
    rw [get_proposal_delegates_approving, h1]
  · intro p h1 h2
    rw [get_proposal_delegates_approving, h1, if_pos rfl, h2]
  · intro h1 h2
    rw [get_proposal_delegates_approving, h1, if_pos rfl, h2]

/-- A two-chamber directory where proposal "p1" exists only in chamber
'2', with approving delegates d1 and d2. -/
def chamber2Api : String → List Proposal :=
  fun council => if council = "2" then [⟨"p1", ["d1", "d2"]⟩] else []

/-- Witness for the proposal-lookup theorem: "p1" is present only in
chamber '2', and the lookup returns chamber 2's approving list; an id
absent from both chambers yields the empty list. -/
theorem proposal_lookup_fallback_witness :
    get_proposal_delegates_approving chamber2Api "p1" "1" = ["d1", "d2"]
    ∧ get_proposal_delegates_approving chamber2Api "nope" "1" = [] := by
  have h := proposal_lookup_fallback chamber2Api "p1"
  have h2 := proposal_lookup_fallback chamber2Api "nope"
  exact ⟨h.2.1 ⟨"p1", ["d1", "d2"]⟩ (by decide) (by decide),
         h2.2.2 (by decide) (by decide)⟩

/-! ## Reconfiguration: `Client.__init__`

Source lines 110-127: the singleton metaclass re-invokes `__init__` on
every `Client(...)` call, so `__init__` is the reconfiguration surface.
It applies `client_key`, then `user_agent`, and only then validates
`delay`, raising `ValueError` when `delay < 30` — after the earlier
fields have already been assigned.  The embedding returns the resulting
attribute state together with the error, if one was raised; attribute
mutations performed before the raise are visible in the returned state,
exactly as in Python. -/

/-- The configuration attributes of the singleton `Client` that
`__init__` may change. -/
structure ClientState where
  client_key : Option String
  user_agent : Option UserAgent
  delay : Int
deriving DecidableEq, Repr

/-- The keyword arguments of one `Client(...)` reconfiguration call
(`none` means the keyword was not passed). -/
structure InitKwargs where
  client_key : Option String
  user_agent : Option UserAgent
  delay : Option Int
deriving DecidableEq, Repr

/-- The `ValueError('Delay can not be less than 30.')` raised by
`__init__`. -/
inductive InitError where
  | delayTooLow
deriving DecidableEq, Repr

/-- Source `Client.__init__`: apply `client_key`, then `user_agent`,
then validate and apply `delay`.  Returns the post-call attribute state
and the raised error, if any; assignments made before the raise remain
in the state. -/
def clientInit (s : ClientState) (k : InitKwargs) : ClientState × Option InitError :=
  let s1 := match k.client_key with
    | some ck => { s with client_key := some ck }
    | none => s
  let s2 := match k.user_agent with
    | some ua => { s1 with user_agent := some ua }
    | none => s1
  match k.delay with
  | some d =>
    if d < 30 then (s2, some InitError.delayTooLow)
    else ({ s2 with delay := d }, none)
  | none => (s2, none)

/-- C9: A reconfiguration whose delay is below 30 raises the synchronous
`ValueError` and leaves the stored delay unchanged; a delay of 30 or
more raises nothing and is stored. -/
theorem delay_floor (s : ClientState) (k : InitKwargs) (d : Int) (hd : k.delay = some d) :
    (d < 30 → (clientInit s k).1.delay = s.delay
      ∧ (clientInit s k).2 = some InitError.delayTooLow)
    ∧ (30 ≤ d → (clientInit s k).1.delay = d ∧ (clientInit s k).2 = none) := by
  obtain ⟨kck, kua, kd⟩ := k
  obtain rfl : kd = some d := hd
  constructor
  · intro hlt
    cases kck <;> cases kua <;> simp [clientInit, hlt]
  · intro hge
    cases kck <;> cases kua <;> simp [clientInit, not_lt.mpr hge]

/-- Witness for the delay-floor theorem: from the default state (delay
185), configuring delay 10 errors and keeps 185; configuring delay 30 is
accepted and stored. -/
theorem delay_floor_witness :
    (clientInit ⟨none, none, 185⟩ ⟨none, none, some 10⟩).1.delay = 185
    ∧ (clientInit ⟨none, none, 185⟩ ⟨none, none, some 10⟩).2 = some InitError.delayTooLow
    ∧ (clientInit ⟨none, none, 185⟩ ⟨none, none, some 30⟩).1.delay = 30
    ∧ (clientInit ⟨none, none, 185⟩ ⟨none, none, some 30⟩).2 = none := by
  have h1 := (delay_floor ⟨none, none, 185⟩ ⟨none, none, some 10⟩ 10 rfl).1 (by decide)
  have h2 := (delay_floor ⟨none, none, 185⟩ ⟨none, none, some 30⟩ 30 rfl).2 (by decide)
  exact ⟨h1.1, h1.2, h2.1, h2.2⟩

/-- C10: Reconfiguration is not atomic on error: a call passing a client
key, a user agent and a delay below 30 raises the delay error only after
the client key and user agent have been assigned, so those assignments
of the rejected call remain applied (and the delay alone is unchanged). -/
theorem reconfig_not_atomic (s : ClientState) (ck : String) (ua : UserAgent) (d : Int)
    (hd : d < 30) :
    clientInit s ⟨some ck, some ua, some d⟩
      = ({ client_key := some ck, user_agent := some ua, delay := s.delay },
         some InitError.delayTooLow) := by
  simp [clientInit, hd]

/-- Witness for the non-atomicity theorem: a concrete rejected call with
delay 10 leaves its client key and user agent applied. -/
theorem reconfig_not_atomic_witness :
    clientInit ⟨none, none, 185⟩ ⟨some "ck", some ⟨"n", "s", "1"⟩, some 10⟩
      = ({ client_key := some "ck", user_agent := some ⟨"n", "s", "1"⟩, delay := 185 },
         some InitError.delayTooLow) :=
  reconfig_not_atomic ⟨none, none, 185⟩ "ck" ⟨"n", "s", "1"⟩ 10 (by decide)

end Yatgl
